import Mathlib

/-!
# Verification of the RepoMonitor batched open-issues aggregation

Shallow embedding of the aggregation core of this repository:

* `src/src/pages/Dashboard.tsx` — the `Dashboard` component's initial
  `fetchStats` effect (lines 73–122) and the manual
  `refreshStats.openIssues` handler (lines 209–278).  Both contain the
  same batching loop: slice the repository list into batches of
  `batchSize = 2`, call `withGitHub` per item, accumulate
  `totalOpenIssues` and `failedRepos`, sleep 1000 ms between batches,
  and finally commit `openIssues` into the `stats` state and emit a
  single consolidated warning toast when `failedRepos` is non-empty.
* `src/src/lib/github.ts` — `GitHubClientImpl`: the per-user
  `userLimiters` registry keyed by `userId` and the `request` method
  (rate-limiter token acquisition, `fetch`, and classification of
  non-2xx responses: 401 clears the cached token and throws; 403 with
  `x-ratelimit-remaining: "0"` throws `rate limit exceeded`; other
  statuses throw a generic error).
-/

namespace RepoMonitor

/-! ## Data model -/

/-- A work item: one tracked repository, as selected by
`supabase.from('repositories').select('owner, name')`. -/
structure Repo where
  owner : String
  name : String
deriving Repr, DecidableEq

/-- The identifier pushed into `failedRepos`:
`` `${repo.owner}/${repo.name}` ``. -/
def repoId (r : Repo) : String := r.owner ++ "/" ++ r.name

/-- Error classes thrown out of `GitHubClientImpl.request`
(github.ts lines 101–111): 401, 403 with exhausted quota, and any
other non-2xx status. -/
inductive GitHubError where
  | unauthorized
  | rateLimited
  | transient
deriving Repr, DecidableEq

/-- The outcome of `await withGitHub(...)` for one item as observed by
the Dashboard loop: either the promise resolves (possibly to `null` —
the `count !== null` test in Dashboard.tsx lines 92–94 / 238–240), or
it rejects with an error thrown by the client. -/
inductive ItemOutcome where
  | ok (count : Option Nat)
  | err (e : GitHubError)
deriving Repr, DecidableEq

/-- The accumulator of one batch run, plus instrumentation counters for
the effects the run performs: `batches` counts loop iterations,
`delays` counts executions of `await new Promise(... setTimeout ...)`,
and `tokenClears` counts calls to `GitHubTokenManager.clearToken()`
(made by `request` on every 401 response, github.ts line 104). -/
@[ext]
structure RunState where
  totalOpenIssues : Nat
  failedRepos : List String
  batches : Nat
  delays : Nat
  tokenClears : Nat
deriving Repr, DecidableEq

/-- `let totalOpenIssues = 0; let failedRepos: string[] = []` before the
loop starts (Dashboard.tsx lines 74–75 / 219–220). -/
def RunState.init : RunState :=
  { totalOpenIssues := 0, failedRepos := [], batches := 0, delays := 0, tokenClears := 0 }

/-- The per-item body of the inner `for (const repo of batch)` loop
(Dashboard.tsx lines 82–98 / 227–245): on resolution, add the count to
the running total unless it is `null`; on rejection, push
`owner/name` onto `failedRepos` and continue.  A rejection with the
401 error was preceded, inside `request`, by one `clearToken()` call,
which `tokenClears` records. -/
def processItem (s : RunState) (it : Repo × ItemOutcome) : RunState :=
  match it.2 with
  | .ok none => s
  | .ok (some c) => { s with totalOpenIssues := s.totalOpenIssues + c }
  | .err e =>
      { s with
        failedRepos := s.failedRepos ++ [repoId it.1],
        tokenClears := s.tokenClears + (if e = .unauthorized then 1 else 0) }

/-- The outer batching loop
`for (let i = 0; i < repositories.length; i += batchSize)`
(Dashboard.tsx lines 79–104 / 224–251), in fuel-indexed form: each
iteration processes the slice `items.take batchSize`, then sleeps iff
items remain beyond the slice (`i + batchSize < repositories.length`),
then continues from `items.drop batchSize`.  The fuel bounds the
number of iterations; with `fuel ≥ items.length` and
`0 < batchSize` it never runs out (the source loop, run with
`batchSize = 0`, would not terminate; `max 1 batchSize` makes the
model total and agrees with `batchSize` whenever `0 < batchSize`). -/
def runBatchesAux (batchSize : Nat) :
    Nat → List (Repo × ItemOutcome) → RunState → RunState
  | _, [], s => s
  | 0, _ :: _, s => s
  | fuel + 1, items@(_ :: _), s =>
      let batch := items.take batchSize
      let rest := items.drop (max 1 batchSize)
      let s1 := batch.foldl processItem s
      let s2 := { s1 with batches := s1.batches + 1 }
      let s3 := if rest.isEmpty then s2 else { s2 with delays := s2.delays + 1 }
      runBatchesAux batchSize fuel rest s3

/-- One run of the open-issues aggregation loop over a work list whose
per-item `withGitHub` outcomes are given alongside each repo.  The
source fixes `batchSize = 2` (Dashboard.tsx lines 78 / 223); the batch
size is kept as a parameter, instantiated at 2 where a claim is about
the concrete code. -/
def fetchOpenIssuesRun (batchSize : Nat) (items : List (Repo × ItemOutcome)) : RunState :=
  runBatchesAux batchSize items.length items RunState.init

/-- The `batchSize` constant used by both aggregation sites. -/
def dashboardBatchSize : Nat := 2

/-! ## Shared view state and the two commit paths -/

/-- The `DashboardStats` interface (Dashboard.tsx lines 9–14), held in
the `stats` `useState` container. -/
structure DashboardStats where
  openIssues : Nat
  trackedRepos : Nat
  analyzedRepos : Nat
  activeAutomations : Nat
deriving Repr, DecidableEq

/-- The terminal output of a run, as the spec's `AggregateResult`:
in the code these are the local variables `totalOpenIssues` and
`failedRepos` at loop exit. -/
structure AggregateResult where
  total : Nat
  failed : List String
deriving Repr, DecidableEq

/-- Project a finished `RunState` to its `AggregateResult`. -/
def RunState.result (s : RunState) : AggregateResult :=
  { total := s.totalOpenIssues, failed := s.failedRepos }

/-- The functional update passed to `setStats` when committing the
aggregated total: `prev => ({ ...prev, openIssues: totalOpenIssues })`
(Dashboard.tsx lines 108–111 / 254–257). -/
def commitOpenIssues (total : Nat) (prev : DashboardStats) : DashboardStats :=
  { prev with openIssues := total }

/-- Committing an `AggregateResult` writes its `total` field via
`commitOpenIssues`. -/
def commitResult (r : AggregateResult) (prev : DashboardStats) : DashboardStats :=
  commitOpenIssues r.total prev

/-- The commit step of the initial `fetchStats` effect
(Dashboard.tsx lines 107–111): the `setStats` call is guarded by
`if (mounted)`, where `mounted` is the effect's liveness flag, set to
`false` by the effect cleanup on unmount (line 136). -/
def fetchStatsCommit (mounted : Bool) (total : Nat) (prev : DashboardStats) :
    DashboardStats :=
  if mounted then commitOpenIssues total prev else prev

/-- The commit step of the manual `refreshStats.openIssues` handler
(Dashboard.tsx lines 254–257).  The source contains no liveness check
on this path: `setStats` is invoked unconditionally.  The `mounted`
parameter is the environment's liveness flag at commit time; the
function ignores it, which is exactly the point. -/
def refreshOpenIssuesCommit (_mounted : Bool) (total : Nat) (prev : DashboardStats) :
    DashboardStats :=
  commitOpenIssues total prev

/-- The functional update passed to `setStats` by the `repoChannel`
realtime handler (Dashboard.tsx lines 166–170):
`prev => ({ ...prev, trackedRepos: trackedRepos || 0,
analyzedRepos: analyzedRepos || 0 })`.  The two counts come back from
supabase possibly `null`; `x || 0` is `Option.getD · 0`. -/
def repoChannelUpdate (trackedRepos analyzedRepos : Option Nat)
    (prev : DashboardStats) : DashboardStats :=
  { prev with
    trackedRepos := trackedRepos.getD 0
    analyzedRepos := analyzedRepos.getD 0 }

/-- The functional update passed to `setStats` by the `jobsChannel`
realtime handler (Dashboard.tsx lines 193–196):
`prev => ({ ...prev, activeAutomations: activeAutomations || 0 })`. -/
def jobsChannelUpdate (activeAutomations : Option Nat)
    (prev : DashboardStats) : DashboardStats :=
  { prev with activeAutomations := activeAutomations.getD 0 }

/-! ## The failure reporter -/

/-- A toast notification as passed to `toast({...})`. -/
structure Toast where
  title : String
  description : String
deriving Repr, DecidableEq

/-- The failure report emitted after the commit
(Dashboard.tsx lines 113–120 / 259–266): when `failedRepos.length > 0`,
exactly one warning toast whose description embeds
`failedRepos.join(', ')`; otherwise nothing. -/
def reportFailures (failedRepos : List String) : List Toast :=
  if failedRepos.length > 0 then
    [{ title := "Warning",
       description :=
         "Failed to fetch issues for: " ++ String.intercalate ", " failedRepos ++
           ". Try clicking the refresh button on the Open Issues card to get the correct total." }]
  else []

/-! ## github.ts: `GitHubClientImpl.request` and the limiter registry -/

/-- The facts about an HTTP response that `request` inspects
(github.ts lines 101–111): `response.ok`, `response.status`, and
whether `x-ratelimit-remaining` is the string `"0"`, plus the
`total_count` of the parsed JSON body in the success case. -/
structure HttpResponse where
  ok : Bool
  status : Nat
  rateLimitRemainingZero : Bool
  totalCount : Nat
deriving Repr, DecidableEq

/-- What `request` returns or throws for a given response. -/
inductive ReqResult where
  | success (totalCount : Nat)
  | failure (e : GitHubError)
deriving Repr, DecidableEq

/-- The classification cascade of `request` (github.ts lines 101–113):
2xx returns the body; 401 throws the invalid-token error; 403 with
`x-ratelimit-remaining === '0'` throws `rate limit exceeded`; any
other non-2xx throws a generic `GitHub API error`. -/
def requestResult (r : HttpResponse) : ReqResult :=
  if r.ok then .success r.totalCount
  else if r.status = 401 then .failure .unauthorized
  else if r.status = 403 ∧ r.rateLimitRemainingZero then .failure .rateLimited
  else .failure .transient

/-- Whether `request` calls `GitHubTokenManager.clearToken()` for this
response: exactly in the 401 branch (github.ts lines 102–105). -/
def requestClearsToken (r : HttpResponse) : Bool :=
  !r.ok && r.status == 401

/-- The observable effects of one `request` call, in program order. -/
inductive ReqEvent where
  | consoleLog
  | removeTokens (n : Nat)
  | httpFetch (path : String)
  | clearToken
deriving Repr, DecidableEq

/-- Is this event a token acquisition from the rate limiter? -/
def isTokenAcquire : ReqEvent → Bool
  | .removeTokens _ => true
  | _ => false

/-- How many limiter tokens this event withdraws. -/
def acquiredTokens : ReqEvent → Nat
  | .removeTokens n => n
  | _ => 0

/-- Is this event the underlying network call? -/
def isHttpFetch : ReqEvent → Bool
  | .httpFetch _ => true
  | _ => false

/-- The straight-line effect trace of `GitHubClientImpl.request`
(github.ts lines 86–114): log, `await this.limiter.removeTokens(1)`,
`await fetch(...)`, then `clearToken()` iff the response is a 401. -/
def requestTrace (path : String) (resp : HttpResponse) : List ReqEvent :=
  [.consoleLog, .removeTokens 1, .httpFetch path] ++
    (if requestClearsToken resp then [.clearToken] else [])

/-- A rate-limiter instance, identified abstractly; github.ts
constructs `new RateLimiter({ tokensPerInterval: 5000,
interval: 'hour' })` instances and the registry below decides which
instance each client holds. -/
abbrev LimiterId := Nat

/-- The module-level `userLimiters: Map<string, RateLimiter>`
(github.ts line 5), as an association list. -/
abbrev LimiterRegistry := List (String × LimiterId)

/-- The constructor's limiter wiring (github.ts lines 76–83): if
`userLimiters` has no entry for `userId`, insert a fresh instance;
then the client holds `userLimiters.get(userId)!`.  Returns the
updated registry and the limiter the client holds. -/
def getOrCreateLimiter (reg : LimiterRegistry) (fresh : LimiterId) (userId : String) :
    LimiterRegistry × LimiterId :=
  match reg.lookup userId with
  | some l => (reg, l)
  | none => ((userId, fresh) :: reg, fresh)

/-- Run a sequence of client constructions against the registry,
drawing fresh limiter identities from a counter; returns, per
construction, the user identity and the limiter the constructed
client holds. -/
def constructClients : List String → LimiterRegistry → Nat → List (String × LimiterId)
  | [], _, _ => []
  | u :: us, reg, c =>
      let p := getOrCreateLimiter reg c u
      (u, p.2) :: constructClients us p.1 (c + 1)

/-! ## Characterization of the run accumulator

Mathematical descriptions of what the loop accumulates, used to state
and prove the claims; the definitions above are the embedding of the
source, these are derived views of it. -/

/-- The contribution of one `withGitHub` outcome to `totalOpenIssues`:
a resolved count adds itself, `null` and rejections add nothing. -/
def itemCount : ItemOutcome → Nat
  | .ok (some c) => c
  | .ok none => 0
  | .err _ => 0

/-- Did this outcome take the `catch` branch of the per-item loop? -/
def isFailure : ItemOutcome → Bool
  | .err _ => true
  | .ok _ => false

/-- Is this outcome a rejection with the 401 invalid-token error? -/
def isUnauthorized : ItemOutcome → Bool
  | .err .unauthorized => true
  | _ => false

/-- Sum of the per-item counts over a work list. -/
def sumCounts (l : List (Repo × ItemOutcome)) : Nat :=
  (l.map fun it => itemCount it.2).sum

/-- The identifiers of the failing items, in list order. -/
def failedOf (l : List (Repo × ItemOutcome)) : List String :=
  (l.filter fun it => isFailure it.2).map fun it => repoId it.1

/-- The number of Unauthorized rejections in a work list. -/
def countUnauth (l : List (Repo × ItemOutcome)) : Nat :=
  l.countP fun it => isUnauthorized it.2

/-- `⌈len / B⌉` written as `(len + B - 1) / B`. -/
def ceilDiv (len B : Nat) : Nat := (len + B - 1) / B

lemma sumCounts_append (l1 l2 : List (Repo × ItemOutcome)) :
    sumCounts (l1 ++ l2) = sumCounts l1 + sumCounts l2 := by
  simp [sumCounts]

lemma failedOf_append (l1 l2 : List (Repo × ItemOutcome)) :
    failedOf (l1 ++ l2) = failedOf l1 ++ failedOf l2 := by
  simp [failedOf, List.filter_append]

lemma countUnauth_append (l1 l2 : List (Repo × ItemOutcome)) :
    countUnauth (l1 ++ l2) = countUnauth l1 + countUnauth l2 := by
  simp [countUnauth, List.countP_append]

lemma processItem_batches (s : RunState) (it : Repo × ItemOutcome) :
    (processItem s it).batches = s.batches := by
  rcases it with ⟨r, o⟩
  cases o with
  | ok c => cases c <;> rfl
  | err e => rfl

lemma processItem_delays (s : RunState) (it : Repo × ItemOutcome) :
    (processItem s it).delays = s.delays := by
  rcases it with ⟨r, o⟩
  cases o with
  | ok c => cases c <;> rfl
  | err e => rfl

lemma processItem_total (s : RunState) (it : Repo × ItemOutcome) :
    (processItem s it).totalOpenIssues = s.totalOpenIssues + itemCount it.2 := by
  rcases it with ⟨r, o⟩
  cases o with
  | ok c => cases c <;> simp [processItem, itemCount]
  | err e => simp [processItem, itemCount]

lemma processItem_failed (s : RunState) (it : Repo × ItemOutcome) :
    (processItem s it).failedRepos =
      s.failedRepos ++ (if isFailure it.2 then [repoId it.1] else []) := by
  rcases it with ⟨r, o⟩
  cases o with
  | ok c => cases c <;> simp [processItem, isFailure]
  | err e => simp [processItem, isFailure]

lemma processItem_clears (s : RunState) (it : Repo × ItemOutcome) :
    (processItem s it).tokenClears =
      s.tokenClears + (if isUnauthorized it.2 then 1 else 0) := by
  rcases it with ⟨r, o⟩
  cases o with
  | ok c => cases c <;> simp [processItem, isUnauthorized]
  | err e => cases e <;> simp [processItem, isUnauthorized]

lemma foldl_processItem_batches (l : List (Repo × ItemOutcome)) (s : RunState) :
    (l.foldl processItem s).batches = s.batches := by
  induction l generalizing s with
  | nil => rfl
  | cons x xs ih => simp [List.foldl_cons, ih, processItem_batches]

lemma foldl_processItem_delays (l : List (Repo × ItemOutcome)) (s : RunState) :
    (l.foldl processItem s).delays = s.delays := by
  induction l generalizing s with
  | nil => rfl
  | cons x xs ih => simp [List.foldl_cons, ih, processItem_delays]

lemma foldl_processItem_total (l : List (Repo × ItemOutcome)) (s : RunState) :
    (l.foldl processItem s).totalOpenIssues = s.totalOpenIssues + sumCounts l := by
  induction l generalizing s with
  | nil => simp [sumCounts]
  | cons x xs ih =>
      simp [List.foldl_cons, ih, processItem_total, sumCounts, Nat.add_assoc]

lemma foldl_processItem_failed (l : List (Repo × ItemOutcome)) (s : RunState) :
    (l.foldl processItem s).failedRepos = s.failedRepos ++ failedOf l := by
  induction l generalizing s with
  | nil => simp [failedOf]
  | cons x xs ih =>
      by_cases h : isFailure x.2 <;>
        simp [List.foldl_cons, ih, processItem_failed, failedOf, h]

lemma foldl_processItem_clears (l : List (Repo × ItemOutcome)) (s : RunState) :
    (l.foldl processItem s).tokenClears = s.tokenClears + countUnauth l := by
  induction l generalizing s with
  | nil => simp [countUnauth]
  | cons x xs ih =>
      by_cases h : isUnauthorized x.2 <;>
        simp [List.foldl_cons, ih, processItem_clears, countUnauth,
          List.countP_cons, h, Nat.add_comm, Nat.add_assoc, Nat.add_left_comm]

lemma ceilDiv_zero (B : Nat) (hB : 0 < B) : ceilDiv 0 B = 0 := by
  unfold ceilDiv
  have h : B - 1 < B := Nat.sub_lt hB Nat.one_pos
  simpa using Nat.div_eq_of_lt h

lemma ceilDiv_of_le (len B : Nat) (h1 : 1 ≤ len) (h2 : len ≤ B) :
    ceilDiv len B = 1 := by
  unfold ceilDiv
  have hB : 0 < B := Nat.lt_of_lt_of_le h1 h2
  refine Nat.div_eq_of_lt_le ?_ ?_
  · omega
  · omega

lemma ceilDiv_of_lt (len B : Nat) (hB : 0 < B) (h : B < len) :
    ceilDiv len B = ceilDiv (len - B) B + 1 := by
  unfold ceilDiv
  have h1 : len + B - 1 = (len - B + B - 1) + B := by omega
  rw [h1, Nat.add_div_right _ hB]

lemma one_le_ceilDiv (len B : Nat) (hB : 0 < B) (h1 : 1 ≤ len) :
    1 ≤ ceilDiv len B := by
  unfold ceilDiv
  refine (Nat.le_div_iff_mul_le hB).mpr ?_
  omega

/-- Main characterization of one loop iteration unfolding plus the
rest: with positive batch size and enough fuel, the run computes the
fold of `processItem` over the whole list, `⌈len/B⌉` batches and
`⌈len/B⌉ - 1` delays. -/
lemma runBatchesAux_eq (B : Nat) (hB : 0 < B) :
    ∀ (fuel : Nat) (items : List (Repo × ItemOutcome)) (s : RunState),
      items.length ≤ fuel →
      runBatchesAux B fuel items s =
        { totalOpenIssues := s.totalOpenIssues + sumCounts items
          failedRepos := s.failedRepos ++ failedOf items
          batches := s.batches + ceilDiv items.length B
          delays := s.delays + (ceilDiv items.length B - 1)
          tokenClears := s.tokenClears + countUnauth items } := by
  intro fuel
  induction fuel with
  | zero =>
      intro items s h
      have : items = [] := List.eq_nil_of_length_eq_zero (Nat.le_zero.mp h)
      subst this
      simp [runBatchesAux, sumCounts, failedOf, countUnauth, ceilDiv_zero B hB]
  | succ n ih =>
      intro items s h
      match items with
      | [] =>
          simp [runBatchesAux, sumCounts, failedOf, countUnauth, ceilDiv_zero B hB]
      | x :: xs =>
          rw [runBatchesAux]
          have hmax : max 1 B = B := Nat.max_eq_right hB
          set items := x :: xs with hitems
          have hlen : 1 ≤ items.length := by simp [hitems]
          have hdroplen : (items.drop B).length = items.length - B := by
            simp
          by_cases hrest : items.drop B = []
          · -- last batch: the whole list fits in one slice
            have hle : items.length ≤ B := by
              have := List.drop_eq_nil_iff.mp hrest
              exact this
            have htake : items.take B = items := List.take_of_length_le hle
            rw [hmax]
            simp only [hrest, List.isEmpty_nil, if_pos]
            rw [runBatchesAux]
            refine RunState.ext ?_ ?_ ?_ ?_ ?_ <;>
              simp [htake, foldl_processItem_total, foldl_processItem_failed,
                foldl_processItem_clears, foldl_processItem_batches,
                foldl_processItem_delays, ceilDiv_of_le items.length B hlen hle]
          · -- more items remain after this batch: recurse
            have hlt : B < items.length := by
              rcases Nat.lt_or_ge B items.length with h' | h'
              · exact h'
              · exact absurd (List.drop_eq_nil_iff.mpr h') hrest
            have hfuel : (items.drop B).length ≤ n := by
              rw [hdroplen]; omega
            rw [hmax]
            simp only [List.isEmpty_iff, hrest, if_neg, ite_false]
            rw [ih (items.drop B) _ hfuel]
            have hsplit : items.take B ++ items.drop B = items :=
              List.take_append_drop B items
            have hrestlen : 1 ≤ (items.drop B).length := by
              rw [hdroplen]; omega
            refine RunState.ext ?_ ?_ ?_ ?_ ?_
            · simp only [foldl_processItem_total, foldl_processItem_batches,
                foldl_processItem_delays, foldl_processItem_clears,
                foldl_processItem_failed]
              have : sumCounts (items.take B) + sumCounts (items.drop B) =
                  sumCounts items := by
                rw [← sumCounts_append, hsplit]
              omega
            · simp only [foldl_processItem_failed]
              have : failedOf (items.take B) ++ failedOf (items.drop B) =
                  failedOf items := by
                rw [← failedOf_append, hsplit]
              rw [List.append_assoc, this]
            · simp only [foldl_processItem_batches]
              have := ceilDiv_of_lt items.length B hB hlt
              rw [hdroplen]
              omega
            · simp only [foldl_processItem_delays]
              have hc := ceilDiv_of_lt items.length B hB hlt
              have h1 := one_le_ceilDiv (items.length - B) B hB (by omega)
              rw [hdroplen]
              omega
            · simp only [foldl_processItem_clears]
              have : countUnauth (items.take B) + countUnauth (items.drop B) =
                  countUnauth items := by
                rw [← countUnauth_append, hsplit]
              omega

/-- Closed form of one whole run: the total is the sum of the resolved
counts, the failed list collects the failing items' identifiers in
order, the credential is cleared once per Unauthorized rejection, and
the loop runs `⌈N/B⌉` batches with `⌈N/B⌉ - 1` inter-batch delays. -/
lemma fetchOpenIssuesRun_eq (B : Nat) (hB : 0 < B)
    (items : List (Repo × ItemOutcome)) :
    fetchOpenIssuesRun B items =
      { totalOpenIssues := sumCounts items
        failedRepos := failedOf items
        batches := ceilDiv items.length B
        delays := ceilDiv items.length B - 1
        tokenClears := countUnauth items } := by
  unfold fetchOpenIssuesRun
  rw [runBatchesAux_eq B hB items.length items RunState.init le_rfl]
  simp [RunState.init]

/-- Two positions `i < j` of a list give a two-element sublist. -/
lemma pair_sublist_of_lt {α : Type} :
    ∀ (l : List α) (i j : Nat) (hij : i < j) (hj : j < l.length),
      List.Sublist [l.get ⟨i, Nat.lt_trans hij hj⟩, l.get ⟨j, hj⟩] l := by
  intro l
  induction l with
  | nil => intro i j hij hj; simp at hj
  | cons x xs ih =>
      intro i j hij hj
      match j, hj with
      | j' + 1, hj =>
        have hj' : j' < xs.length := by simpa using hj
        match i with
        | 0 =>
            have hmem : xs.get ⟨j', hj'⟩ ∈ xs := List.get_mem _ _ _
            exact (List.singleton_sublist.mpr hmem).cons₂ x
        | i' + 1 =>
            have hij' : i' < j' := by omega
            exact (ih i' j' hij' hj').cons x

/-! ## Lemmas about the limiter registry -/

lemma getOrCreateLimiter_lookup (reg : LimiterRegistry) (f : LimiterId) (u : String) :
    (getOrCreateLimiter reg f u).1.lookup u = some (getOrCreateLimiter reg f u).2 := by
  unfold getOrCreateLimiter
  cases h : reg.lookup u with
  | some l => simp [h]
  | none => simp [h, List.lookup_cons]

lemma getOrCreateLimiter_preserves (reg : LimiterRegistry) (f : LimiterId)
    (u v : String) (l : LimiterId) (h : reg.lookup v = some l) :
    (getOrCreateLimiter reg f u).1.lookup v = some l := by
  unfold getOrCreateLimiter
  cases h' : reg.lookup u with
  | some l' => simpa [h'] using h
  | none =>
      simp only [h', List.lookup_cons]
      by_cases hv : v = u
      · subst hv; rw [h] at h'; cases h'
      · have : (v == u) = false := by
          simp [hv]
        simp [this, h]

/-- Once a user is registered with a limiter, every later construction
for that user receives exactly that limiter. -/
lemma constructClients_registered (us : List String) :
    ∀ (reg : LimiterRegistry) (c : Nat) (u : String) (l : LimiterId),
      reg.lookup u = some l →
      ∀ p ∈ constructClients us reg c, p.1 = u → p.2 = l := by
  induction us with
  | nil =>
      intro reg c u l _ p hp
      simp [constructClients] at hp
  | cons v vs ih =>
      intro reg c u l h p hp hpu
      simp only [constructClients, List.mem_cons] at hp
      rcases hp with hp | hp
      · have hv : v = u := by rw [hp] at hpu; exact hpu
        subst hv
        rw [hp]
        unfold getOrCreateLimiter
        rw [h]
      · exact ih _ _ u l (getOrCreateLimiter_preserves reg c v u l h) p hp hpu

/-- Any two clients constructed for the same user identity hold the
same limiter instance. -/
lemma constructClients_same_user (us : List String) :
    ∀ (reg : LimiterRegistry) (c : Nat) (p q : String × LimiterId),
      p ∈ constructClients us reg c → q ∈ constructClients us reg c →
      p.1 = q.1 → p.2 = q.2 := by
  induction us with
  | nil =>
      intro reg c p q hp
      simp [constructClients] at hp
  | cons v vs ih =>
      intro reg c p q hp hq hpq
      simp only [constructClients, List.mem_cons] at hp hq
      have hreg := getOrCreateLimiter_lookup reg c v
      rcases hp with hp | hp <;> rcases hq with hq | hq
      · rw [hp, hq]
      · -- p is the head, q is constructed later for the same user
        have : q.2 = (getOrCreateLimiter reg c v).2 := by
          refine constructClients_registered vs _ _ v _ hreg q hq ?_
          rw [← hpq, hp]
        rw [this, hp]
      · have : p.2 = (getOrCreateLimiter reg c v).2 := by
          refine constructClients_registered vs _ _ v _ hreg p hp ?_
          rw [hpq, hq]
        rw [this, hq]
      · exact ih _ _ p q hp hq hpq

/-! ## Claim theorems -/

/-- **C1 (counterexample).** The claim says a run containing an
Unauthorized (401) response aborts with no commit and clears the
credential exactly once.  On the code, a run of two Unauthorized items
clears the credential twice (once per 401, github.ts line 104), and
the run still reaches its commit: committing the computed total into
shared view state changes the state (here from `openIssues = 7` to
`0`), so a commit does occur and partial state is not discarded. -/
theorem unauthorizedRunCounterexample :
    (fetchOpenIssuesRun 2
        [({ owner := "a", name := "r1" }, ItemOutcome.err GitHubError.unauthorized),
         ({ owner := "a", name := "r2" }, ItemOutcome.err GitHubError.unauthorized)]).tokenClears ≠ 1 ∧
    fetchStatsCommit true
        (fetchOpenIssuesRun 2
          [({ owner := "a", name := "r1" }, ItemOutcome.err GitHubError.unauthorized),
           ({ owner := "a", name := "r2" }, ItemOutcome.err GitHubError.unauthorized)]).totalOpenIssues
        { openIssues := 7, trackedRepos := 1, analyzedRepos := 1, activeAutomations := 1 } ≠
      { openIssues := 7, trackedRepos := 1, analyzedRepos := 1, activeAutomations := 1 } := by
  decide

/-- **C1 (amended).** A run containing at least one Unauthorized
response does not abort: the per-item `catch` (Dashboard.tsx lines
95–97) swallows the 401 error like any other failure, so the
Unauthorized items land in the failed list, the accumulated total of
the remaining items is retained and is still committed into shared
view state, and the credential is cleared once per Unauthorized
response — not exactly once per run. -/
theorem unauthorizedRunStillCommits (B : Nat) (hB : 0 < B)
    (items : List (Repo × ItemOutcome)) (prev : DashboardStats)
    (_hu : 1 ≤ countUnauth items) :
    (fetchOpenIssuesRun B items).tokenClears = countUnauth items ∧
    (fetchOpenIssuesRun B items).totalOpenIssues = sumCounts items ∧
    (fetchOpenIssuesRun B items).failedRepos = failedOf items ∧
    fetchStatsCommit true (fetchOpenIssuesRun B items).totalOpenIssues prev =
      { prev with openIssues := (fetchOpenIssuesRun B items).totalOpenIssues } := by
  rw [fetchOpenIssuesRun_eq B hB]
  exact ⟨rfl, rfl, rfl, rfl⟩

/-- Witness for C1 (amended) at the spec's §8.7 scenario, second item
Unauthorized: the credential is cleared once, the total of the other
two items (8) is committed, and `a/r2` is in the failed list. -/
theorem unauthorizedRunStillCommitsWitness :
    (fetchOpenIssuesRun 2
        [({ owner := "a", name := "r1" }, ItemOutcome.ok (some 3)),
         ({ owner := "a", name := "r2" }, ItemOutcome.err GitHubError.unauthorized),
         ({ owner := "a", name := "r3" }, ItemOutcome.ok (some 5))]).tokenClears =
      countUnauth
        [({ owner := "a", name := "r1" }, ItemOutcome.ok (some 3)),
         ({ owner := "a", name := "r2" }, ItemOutcome.err GitHubError.unauthorized),
         ({ owner := "a", name := "r3" }, ItemOutcome.ok (some 5))] ∧
    (fetchOpenIssuesRun 2
        [({ owner := "a", name := "r1" }, ItemOutcome.ok (some 3)),
         ({ owner := "a", name := "r2" }, ItemOutcome.err GitHubError.unauthorized),
         ({ owner := "a", name := "r3" }, ItemOutcome.ok (some 5))]).totalOpenIssues =
      sumCounts
        [({ owner := "a", name := "r1" }, ItemOutcome.ok (some 3)),
         ({ owner := "a", name := "r2" }, ItemOutcome.err GitHubError.unauthorized),
         ({ owner := "a", name := "r3" }, ItemOutcome.ok (some 5))] ∧
    (fetchOpenIssuesRun 2
        [({ owner := "a", name := "r1" }, ItemOutcome.ok (some 3)),
         ({ owner := "a", name := "r2" }, ItemOutcome.err GitHubError.unauthorized),
         ({ owner := "a", name := "r3" }, ItemOutcome.ok (some 5))]).failedRepos =
      failedOf
        [({ owner := "a", name := "r1" }, ItemOutcome.ok (some 3)),
         ({ owner := "a", name := "r2" }, ItemOutcome.err GitHubError.unauthorized),
         ({ owner := "a", name := "r3" }, ItemOutcome.ok (some 5))] ∧
    fetchStatsCommit true
        (fetchOpenIssuesRun 2
          [({ owner := "a", name := "r1" }, ItemOutcome.ok (some 3)),
           ({ owner := "a", name := "r2" }, ItemOutcome.err GitHubError.unauthorized),
           ({ owner := "a", name := "r3" }, ItemOutcome.ok (some 5))]).totalOpenIssues
        { openIssues := 0, trackedRepos := 2, analyzedRepos := 1, activeAutomations := 0 } =
      { ({ openIssues := 0, trackedRepos := 2, analyzedRepos := 1, activeAutomations := 0 } :
          DashboardStats) with
          openIssues :=
            (fetchOpenIssuesRun 2
              [({ owner := "a", name := "r1" }, ItemOutcome.ok (some 3)),
               ({ owner := "a", name := "r2" }, ItemOutcome.err GitHubError.unauthorized),
               ({ owner := "a", name := "r3" }, ItemOutcome.ok (some 5))]).totalOpenIssues } :=
  unauthorizedRunStillCommits 2 (by decide)
    [({ owner := "a", name := "r1" }, ItemOutcome.ok (some 3)),
     ({ owner := "a", name := "r2" }, ItemOutcome.err GitHubError.unauthorized),
     ({ owner := "a", name := "r3" }, ItemOutcome.ok (some 5))]
    { openIssues := 0, trackedRepos := 2, analyzedRepos := 1, activeAutomations := 0 }
    (by decide)

/-- **C2.** For a work list of size `N` and batch size `B > 0`, one run
of the aggregation loop executes exactly `⌈N/B⌉` batches
(`ceilDiv N B = (N + B - 1) / B`) and sleeps the inter-batch delay
exactly `⌈N/B⌉ - 1` times (truncated subtraction: an empty work list
runs zero batches and zero delays): the delay is executed after each
batch except the last, matching the guard
`i + batchSize < repositories.length`. -/
theorem batchAndDelayCount (B : Nat) (hB : 0 < B)
    (items : List (Repo × ItemOutcome)) :
    (fetchOpenIssuesRun B items).batches = ceilDiv items.length B ∧
    (fetchOpenIssuesRun B items).delays = ceilDiv items.length B - 1 := by
  rw [fetchOpenIssuesRun_eq B hB]
  exact ⟨rfl, rfl⟩

/-- Witness for C2: three items at batch size 2 run `⌈3/2⌉ = 2` batches
and one delay. -/
theorem batchAndDelayCountWitness :
    (fetchOpenIssuesRun 2
        [({ owner := "a", name := "r1" }, ItemOutcome.ok (some 3)),
         ({ owner := "a", name := "r2" }, ItemOutcome.ok (some 0)),
         ({ owner := "a", name := "r3" }, ItemOutcome.ok (some 5))]).batches =
      ceilDiv
        ([({ owner := "a", name := "r1" }, ItemOutcome.ok (some 3)),
          ({ owner := "a", name := "r2" }, ItemOutcome.ok (some 0)),
          ({ owner := "a", name := "r3" }, ItemOutcome.ok (some 5))] :
            List (Repo × ItemOutcome)).length 2 ∧
    (fetchOpenIssuesRun 2
        [({ owner := "a", name := "r1" }, ItemOutcome.ok (some 3)),
         ({ owner := "a", name := "r2" }, ItemOutcome.ok (some 0)),
         ({ owner := "a", name := "r3" }, ItemOutcome.ok (some 5))]).delays =
      ceilDiv
        ([({ owner := "a", name := "r1" }, ItemOutcome.ok (some 3)),
          ({ owner := "a", name := "r2" }, ItemOutcome.ok (some 0)),
          ({ owner := "a", name := "r3" }, ItemOutcome.ok (some 5))] :
            List (Repo × ItemOutcome)).length 2 - 1 :=
  batchAndDelayCount 2 (by decide)
    [({ owner := "a", name := "r1" }, ItemOutcome.ok (some 3)),
     ({ owner := "a", name := "r2" }, ItemOutcome.ok (some 0)),
     ({ owner := "a", name := "r3" }, ItemOutcome.ok (some 5))]

/-- **C3 (counterexample).** The claim says every commit of the
aggregated total is guarded by a liveness check read immediately
before the commit, so an abandoned run never writes to shared view
state.  The manual-refresh path (Dashboard.tsx lines 254–257) has no
such check: with the owning context torn down (liveness flag
`false`), its commit still changes the shared view state. -/
theorem refreshCommitAfterTeardownCounterexample :
    refreshOpenIssuesCommit false 5
        { openIssues := 0, trackedRepos := 0, analyzedRepos := 0, activeAutomations := 0 } ≠
      { openIssues := 0, trackedRepos := 0, analyzedRepos := 0, activeAutomations := 0 } := by
  decide

/-- **C3 (amended).** Only the initial-fetch path guards its commit
with a liveness check: `fetchStats` reads `mounted` immediately before
`setStats` (Dashboard.tsx line 107) and does not write after teardown,
while the manual-refresh path (lines 254–257) commits the total
unconditionally, regardless of liveness. -/
theorem livenessGuardsByPath (total : Nat) (prev : DashboardStats) (mounted : Bool) :
    fetchStatsCommit false total prev = prev ∧
    fetchStatsCommit true total prev = commitOpenIssues total prev ∧
    refreshOpenIssuesCommit mounted total prev = commitOpenIssues total prev :=
  ⟨rfl, rfl, rfl⟩

/-- **C4.** In a run in which every item's remote call succeeds (every
`withGitHub` resolves to a count), the failed list of the resulting
`AggregateResult` is empty and the committed total is the sum of the
per-item counts. -/
theorem allSuccessResult (B : Nat) (hB : 0 < B)
    (items : List (Repo × ItemOutcome))
    (h : ∀ p ∈ items, ∃ c, p.2 = ItemOutcome.ok (some c)) :
    (fetchOpenIssuesRun B items).result.failed = [] ∧
    (fetchOpenIssuesRun B items).result.total = sumCounts items := by
  rw [fetchOpenIssuesRun_eq B hB]
  refine ⟨?_, rfl⟩
  show failedOf items = []
  unfold failedOf
  have hfil : items.filter (fun it => isFailure it.2) = [] := by
    rw [List.filter_eq_nil_iff]
    intro a ha
    rcases h a ha with ⟨c, hc⟩
    rw [hc]
    simp [isFailure]
  rw [hfil]
  rfl

/-- Witness for C4: three successful items with counts 3, 0, 5 give an
empty failed list and total 8. -/
theorem allSuccessResultWitness :
    (fetchOpenIssuesRun 2
        [({ owner := "a", name := "r1" }, ItemOutcome.ok (some 3)),
         ({ owner := "a", name := "r2" }, ItemOutcome.ok (some 0)),
         ({ owner := "a", name := "r3" }, ItemOutcome.ok (some 5))]).result.failed = [] ∧
    (fetchOpenIssuesRun 2
        [({ owner := "a", name := "r1" }, ItemOutcome.ok (some 3)),
         ({ owner := "a", name := "r2" }, ItemOutcome.ok (some 0)),
         ({ owner := "a", name := "r3" }, ItemOutcome.ok (some 5))]).result.total =
      sumCounts
        [({ owner := "a", name := "r1" }, ItemOutcome.ok (some 3)),
         ({ owner := "a", name := "r2" }, ItemOutcome.ok (some 0)),
         ({ owner := "a", name := "r3" }, ItemOutcome.ok (some 5))] :=
  allSuccessResult 2 (by decide)
    [({ owner := "a", name := "r1" }, ItemOutcome.ok (some 3)),
     ({ owner := "a", name := "r2" }, ItemOutcome.ok (some 0)),
     ({ owner := "a", name := "r3" }, ItemOutcome.ok (some 5))]
    (by
      intro p hp
      simp only [List.mem_cons, List.not_mem_nil, or_false] at hp
      rcases hp with h | h | h <;> subst h
      · exact ⟨3, rfl⟩
      · exact ⟨0, rfl⟩
      · exact ⟨5, rfl⟩)

/-- **C5.** The reporter emits no notification when the failed list is
empty, and exactly one consolidated warning when it is non-empty; that
single warning's description contains the identifiers of all failed
items joined by `", "` (never one warning per item). -/
theorem consolidatedWarning (failed : List String) :
    (failed = [] → reportFailures failed = []) ∧
    (failed ≠ [] →
      ∃ t, reportFailures failed = [t] ∧
        ∃ pre suf,
          t.description.data =
            pre ++ (String.intercalate ", " failed).data ++ suf) := by
  constructor
  · intro h
    subst h
    rfl
  · intro h
    have hlen : 0 < failed.length := List.length_pos.mpr h
    unfold reportFailures
    rw [if_pos hlen]
    refine ⟨_, rfl, "Failed to fetch issues for: ".data,
      ". Try clicking the refresh button on the Open Issues card to get the correct total.".data,
      ?_⟩
    simp [String.data_append]

/-- Witness for C5: two failed identifiers produce exactly one warning
whose text embeds `"a/r1, b/r2"`. -/
theorem consolidatedWarningWitness :
    ((["a/r1", "b/r2"] : List String) = [] → reportFailures ["a/r1", "b/r2"] = []) ∧
    ((["a/r1", "b/r2"] : List String) ≠ [] →
      ∃ t, reportFailures ["a/r1", "b/r2"] = [t] ∧
        ∃ pre suf,
          t.description.data =
            pre ++ (String.intercalate ", " ["a/r1", "b/r2"]).data ++ suf) :=
  consolidatedWarning ["a/r1", "b/r2"]

/-- **C6.** If the items at positions `i < j` of the work list both
fail with a non-Unauthorized error, then the identifier of item `i`
precedes the identifier of item `j` in the run's failed list: the
two identifiers form a sublist of `failedRepos` in that order. -/
theorem failedPreservesOrder (B : Nat) (hB : 0 < B)
    (items : List (Repo × ItemOutcome)) (i j : Nat)
    (hij : i < j) (hj : j < items.length) (ei ej : GitHubError)
    (hgi : (items.get ⟨i, Nat.lt_trans hij hj⟩).2 = ItemOutcome.err ei)
    (hgj : (items.get ⟨j, hj⟩).2 = ItemOutcome.err ej)
    (_hei : ei ≠ GitHubError.unauthorized)
    (_hej : ej ≠ GitHubError.unauthorized) :
    List.Sublist
      [repoId (items.get ⟨i, Nat.lt_trans hij hj⟩).1,
       repoId (items.get ⟨j, hj⟩).1]
      (fetchOpenIssuesRun B items).failedRepos := by
  rw [fetchOpenIssuesRun_eq B hB]
  show List.Sublist _ (failedOf items)
  unfold failedOf
  have hsub := pair_sublist_of_lt items i j hij hj
  have hfil := hsub.filter (fun it => isFailure it.2)
  have hpi : isFailure (items.get ⟨i, Nat.lt_trans hij hj⟩).2 = true := by
    rw [hgi]; rfl
  have hpj : isFailure (items.get ⟨j, hj⟩).2 = true := by
    rw [hgj]; rfl
  simp only [List.get_eq_getElem] at hpi hpj
  have hpair :
      [items.get ⟨i, Nat.lt_trans hij hj⟩, items.get ⟨j, hj⟩].filter
          (fun it => isFailure it.2) =
        [items.get ⟨i, Nat.lt_trans hij hj⟩, items.get ⟨j, hj⟩] := by
    simp [List.filter_cons, hpi, hpj]
  rw [hpair] at hfil
  have hmap := hfil.map (fun it => repoId it.1)
  simpa using hmap

/-- Witness for C6: items at positions 0 and 2 fail transiently and
rate-limited; `a/r1` precedes `a/r3` in the failed list. -/
theorem failedPreservesOrderWitness :
    List.Sublist
      [repoId (([({ owner := "a", name := "r1" }, ItemOutcome.err GitHubError.transient),
          ({ owner := "a", name := "r2" }, ItemOutcome.ok (some 4)),
          ({ owner := "a", name := "r3" }, ItemOutcome.err GitHubError.rateLimited)] :
            List (Repo × ItemOutcome)).get ⟨0, by decide⟩).1,
       repoId (([({ owner := "a", name := "r1" }, ItemOutcome.err GitHubError.transient),
          ({ owner := "a", name := "r2" }, ItemOutcome.ok (some 4)),
          ({ owner := "a", name := "r3" }, ItemOutcome.err GitHubError.rateLimited)] :
            List (Repo × ItemOutcome)).get ⟨2, by decide⟩).1]
      (fetchOpenIssuesRun 2
        [({ owner := "a", name := "r1" }, ItemOutcome.err GitHubError.transient),
         ({ owner := "a", name := "r2" }, ItemOutcome.ok (some 4)),
         ({ owner := "a", name := "r3" }, ItemOutcome.err GitHubError.rateLimited)]).failedRepos :=
  failedPreservesOrder 2 (by decide)
    [({ owner := "a", name := "r1" }, ItemOutcome.err GitHubError.transient),
     ({ owner := "a", name := "r2" }, ItemOutcome.ok (some 4)),
     ({ owner := "a", name := "r3" }, ItemOutcome.err GitHubError.rateLimited)]
    0 2 (by decide) (by decide) GitHubError.transient GitHubError.rateLimited
    rfl rfl (by decide) (by decide)

/-- **C7.** Committing an aggregated total is a scoped merge: it
changes only `openIssues`, leaving `trackedRepos`, `analyzedRepos` and
`activeAutomations` untouched; conversely the `repoChannel` realtime
update touches only `trackedRepos`/`analyzedRepos` and the
`jobsChannel` update only `activeAutomations`, both leaving
`openIssues` untouched. -/
theorem commitFrame (total : Nat) (tr an aa : Option Nat) (prev : DashboardStats) :
    ((commitOpenIssues total prev).trackedRepos = prev.trackedRepos ∧
     (commitOpenIssues total prev).analyzedRepos = prev.analyzedRepos ∧
     (commitOpenIssues total prev).activeAutomations = prev.activeAutomations) ∧
    ((repoChannelUpdate tr an prev).openIssues = prev.openIssues ∧
     (repoChannelUpdate tr an prev).activeAutomations = prev.activeAutomations) ∧
    ((jobsChannelUpdate aa prev).openIssues = prev.openIssues ∧
     (jobsChannelUpdate aa prev).trackedRepos = prev.trackedRepos ∧
     (jobsChannelUpdate aa prev).analyzedRepos = prev.analyzedRepos) :=
  ⟨⟨rfl, rfl, rfl⟩, ⟨rfl, rfl⟩, ⟨rfl, rfl, rfl⟩⟩

/-- **C8.** Committing the same `AggregateResult` twice is idempotent
on the shared view state: the second commit produces exactly the state
left by the first. -/
theorem commitIdempotent (r : AggregateResult) (prev : DashboardStats) :
    commitResult r (commitResult r prev) = commitResult r prev :=
  rfl

/-- **C9.** Every `request` acquires exactly one token from the rate
limiter strictly before issuing the network call — the trace
decomposes as `pre ++ fetch :: suf` where `pre` withdraws exactly one
token in exactly one acquisition and `suf` contains none, and the
trace contains exactly one fetch — and any two clients constructed
for the same user identity hold the same limiter instance, so no
request under that identity bypasses the shared limiter. -/
theorem requestRateLimiterDiscipline (path : String) (resp : HttpResponse)
    (users : List String) (i j : Nat) (u : String) (li lj : LimiterId)
    (hi : (constructClients users [] 0).get? i = some (u, li))
    (hj : (constructClients users [] 0).get? j = some (u, lj)) :
    (∃ pre suf,
        requestTrace path resp = pre ++ ReqEvent.httpFetch path :: suf ∧
        (pre.map acquiredTokens).sum = 1 ∧
        pre.countP isTokenAcquire = 1 ∧
        suf.countP isTokenAcquire = 0) ∧
    (requestTrace path resp).countP isHttpFetch = 1 ∧
    li = lj := by
  refine ⟨?_, ?_, ?_⟩
  · by_cases h : requestClearsToken resp = true
    · refine ⟨[ReqEvent.consoleLog, ReqEvent.removeTokens 1], [ReqEvent.clearToken],
        ?_, by decide, by decide, by decide⟩
      simp [requestTrace, h]
    · refine ⟨[ReqEvent.consoleLog, ReqEvent.removeTokens 1], [],
        ?_, by decide, by decide, by decide⟩
      simp [requestTrace, h]
  · by_cases h : requestClearsToken resp = true <;>
      simp [requestTrace, h, List.countP_cons, isHttpFetch]
  · have hpi : (u, li) ∈ constructClients users [] 0 := List.get?_mem hi
    have hpj : (u, lj) ∈ constructClients users [] 0 := List.get?_mem hj
    exact constructClients_same_user users [] 0 (u, li) (u, lj) hpi hpj rfl

/-- Witness for C9: a 401 response's trace acquires one token before
its fetch, and the first and third clients, both constructed for
`alice` (with `bob` in between), hold the same limiter. -/
theorem requestRateLimiterDisciplineWitness :
    (∃ pre suf,
        requestTrace "/repos/a/r1/issues"
            { ok := false, status := 401, rateLimitRemainingZero := false, totalCount := 0 } =
          pre ++ ReqEvent.httpFetch "/repos/a/r1/issues" :: suf ∧
        (pre.map acquiredTokens).sum = 1 ∧
        pre.countP isTokenAcquire = 1 ∧
        suf.countP isTokenAcquire = 0) ∧
    (requestTrace "/repos/a/r1/issues"
        { ok := false, status := 401, rateLimitRemainingZero := false, totalCount := 0 }).countP
        isHttpFetch = 1 ∧
    (0 : LimiterId) = 0 :=
  requestRateLimiterDiscipline "/repos/a/r1/issues"
    { ok := false, status := 401, rateLimitRemainingZero := false, totalCount := 0 }
    ["alice", "bob", "alice"] 0 2 "alice" 0 0 (by decide) (by decide)

/-- **C10.** An item whose `withGitHub` call resolves to `null` is
silently skipped: removing it from the work list changes neither the
final total nor the failed list — it is counted neither as a success
nor as a failure. -/
theorem nullResultSkipped (B : Nat) (hB : 0 < B)
    (pre post : List (Repo × ItemOutcome)) (r : Repo) :
    (fetchOpenIssuesRun B (pre ++ (r, ItemOutcome.ok none) :: post)).totalOpenIssues =
      (fetchOpenIssuesRun B (pre ++ post)).totalOpenIssues ∧
    (fetchOpenIssuesRun B (pre ++ (r, ItemOutcome.ok none) :: post)).failedRepos =
      (fetchOpenIssuesRun B (pre ++ post)).failedRepos := by
  rw [fetchOpenIssuesRun_eq B hB, fetchOpenIssuesRun_eq B hB]
  constructor
  · show sumCounts _ = sumCounts _
    simp [sumCounts, itemCount]
  · show failedOf _ = failedOf _
    simp [failedOf, List.filter_append, List.filter_cons, isFailure]

/-- Witness for C10: a `null` resolution between two items leaves
total and failed list exactly as without it. -/
theorem nullResultSkippedWitness :
    (fetchOpenIssuesRun 2
        ([({ owner := "a", name := "r1" }, ItemOutcome.ok (some 3))] ++
          ({ owner := "a", name := "r2" }, ItemOutcome.ok none) ::
            [({ owner := "a", name := "r3" }, ItemOutcome.err GitHubError.transient)])).totalOpenIssues =
      (fetchOpenIssuesRun 2
        ([({ owner := "a", name := "r1" }, ItemOutcome.ok (some 3))] ++
          [({ owner := "a", name := "r3" }, ItemOutcome.err GitHubError.transient)])).totalOpenIssues ∧
    (fetchOpenIssuesRun 2
        ([({ owner := "a", name := "r1" }, ItemOutcome.ok (some 3))] ++
          ({ owner := "a", name := "r2" }, ItemOutcome.ok none) ::
            [({ owner := "a", name := "r3" }, ItemOutcome.err GitHubError.transient)])).failedRepos =
      (fetchOpenIssuesRun 2
        ([({ owner := "a", name := "r1" }, ItemOutcome.ok (some 3))] ++
          [({ owner := "a", name := "r3" }, ItemOutcome.err GitHubError.transient)])).failedRepos :=
  nullResultSkipped 2 (by decide)
    [({ owner := "a", name := "r1" }, ItemOutcome.ok (some 3))]
    [({ owner := "a", name := "r3" }, ItemOutcome.err GitHubError.transient)]
    { owner := "a", name := "r2" }

end RepoMonitor

